import Mathlib

/-!
Verification of the authentication core of a task-management web application.

The development shallowly embeds the security-relevant parts of the source:
the user account model with its lockout state machine (`src/lib/db/models`,
the `User` mongoose schema), the login and registration route handlers
(`src/app/api/auth/login/route.ts`), the unified authenticator
(`src/lib/auth/auth.config.ts` middleware section), the rate limiters
(`src/lib/utils/rateLimiter.ts`), the password strength validator
(`src/lib/utils/security.ts`), and the request-boundary middleware.

Time is modelled as a natural number of milliseconds (JavaScript `Date.now()`).
Strings are Lean `String`s; character-level operations go through `String.data`.
External collaborators (bcrypt comparison outcomes, token signing) are passed
as parameters where the source calls out to a library.
-/

namespace TodoAuth

/-! ## Data model: user accounts (`User` mongoose schema) -/

/-- The `provider` tag of an account (`enum: ['credentials','google','github']`,
default `'credentials'`). -/
inductive Provider
  | credentials
  | google
  | github
deriving DecidableEq, Repr

/-- A persisted user account, mirroring the fields of the `IUser` schema that
the authentication core reads or writes.  `password` is the stored bcrypt
digest (absent for OAuth-only accounts); `lockUntil` and `lastLogin` are
millisecond timestamps. -/
structure Account where
  id : String
  email : String
  password : Option String
  firstName : String
  lastName : String
  avatar : String
  provider : Provider
  providerId : Option String
  emailVerified : Bool
  lastLogin : Option Nat
  loginAttempts : Nat
  lockUntil : Option Nat
deriving DecidableEq, Repr

/-- `MAX_LOGIN_ATTEMPTS` from the User model. -/
def MAX_LOGIN_ATTEMPTS : Nat := 5

/-- `LOCK_TIME` from the User model: 2 hours in milliseconds. -/
def LOCK_TIME : Nat := 2 * 60 * 60 * 1000

/-- `userSchema.methods.isLocked`: true iff `lockUntil` is set and strictly in
the future (`this.lockUntil && this.lockUntil > new Date()`). -/
def isLocked (a : Account) (now : Nat) : Bool :=
  match a.lockUntil with
  | some t => now < t
  | none => false

/-- The guard of the reset branch of `incrementLoginAttempts`:
`this.lockUntil && this.lockUntil < new Date()` (a lock exists and is strictly
in the past). -/
def lockExpired (a : Account) (now : Nat) : Bool :=
  match a.lockUntil with
  | some t => t < now
  | none => false

/-- `userSchema.methods.incrementLoginAttempts`: if an existing lock has
expired, reset the counter to 1 and clear the lock; otherwise increment the
counter and, when the post-increment count reaches `MAX_LOGIN_ATTEMPTS` and
the account is not currently locked, set `lockUntil := now + LOCK_TIME`.
Both updates of the second branch are applied in one `updateOne`. -/
def incrementLoginAttempts (a : Account) (now : Nat) : Account :=
  if lockExpired a now then
    { a with loginAttempts := 1, lockUntil := none }
  else
    { a with
      loginAttempts := a.loginAttempts + 1,
      lockUntil :=
        if a.loginAttempts + 1 ≥ MAX_LOGIN_ATTEMPTS ∧ ¬ isLocked a now then
          some (now + LOCK_TIME)
        else a.lockUntil }

/-- `userSchema.methods.resetLoginAttempts`: zero the counter, clear the lock
and stamp `lastLogin`, in one `updateOne`. -/
def resetLoginAttempts (a : Account) (now : Nat) : Account :=
  { a with loginAttempts := 0, lockUntil := none, lastLogin := some now }

/-- `userSchema.methods.comparePassword`: returns `false` when the account has
no stored digest; otherwise the outcome of `bcrypt.compare`, which we take as
the parameter `bcryptOk` (the bcrypt library is external to the embedding). -/
def comparePassword (a : Account) (bcryptOk : Bool) : Bool :=
  match a.password with
  | none => false
  | some _ => bcryptOk

/-! ## Login route handler (`src/app/api/auth/login/route.ts`, POST) -/

/-- The distinguishable outcomes of the login POST handler. -/
inductive LoginOutcome
  | rateLimited (waitTime : Nat)
  | userNotFound
  | oauthNoPassword
  | accountLocked
  | invalidPassword
  | success
deriving DecidableEq, Repr

/-- HTTP status attached to each login outcome by the handler. -/
def LoginOutcome.status : LoginOutcome → Nat
  | .rateLimited _ => 429
  | .userNotFound => 401
  | .oauthNoPassword => 401
  | .accountLocked => 401
  | .invalidPassword => 401
  | .success => 200

/-- The account-level portion of the login handler (route.ts lines 47-82),
reached once the rate limiter has allowed the attempt and the user record was
found: OAuth-without-password check, lock check, password comparison, then
increment on failure / reset on success. -/
def loginStep (a : Account) (now : Nat) (bcryptOk : Bool) :
    LoginOutcome × Account :=
  if a.password = none ∧ a.provider ≠ Provider.credentials then
    (.oauthNoPassword, a)
  else if isLocked a now then
    (.accountLocked, a)
  else if comparePassword a bcryptOk then
    (.success, resetLoginAttempts a now)
  else
    (.invalidPassword, incrementLoginAttempts a now)

/-- The full login POST handler: rate-limit gate (its verdict `rl` is computed
by `checkLoginRateLimit`, modelled separately), user lookup, then
`loginStep`. -/
def loginRoute (rl : Bool × Nat) (user : Option Account) (now : Nat)
    (bcryptOk : Bool) : LoginOutcome × Option Account :=
  if ¬ rl.1 then (.rateLimited rl.2, user)
  else
    match user with
    | none => (.userNotFound, none)
    | some a =>
      let r := loginStep a now bcryptOk
      (r.1, some r.2)

/-- Folding consecutive failed login attempts (wrong password each time) over
an account, at the given sequence of timestamps. -/
def failedLoginFold (a : Account) (ts : List Nat) : Account :=
  ts.foldl (fun s t => (loginStep s t false).2) a

/-! ## Lockout lemmas -/

lemma comparePassword_false (a : Account) : comparePassword a false = false := by
  unfold comparePassword
  cases a.password <;> rfl

/-- A failed password verification on an unlocked account with a stored digest
reports invalid credentials and applies the increment, locking at the
threshold. -/
lemma loginStep_failed (a : Account) (now : Nat)
    (hpw : a.password ≠ none) (hl : a.lockUntil = none) :
    loginStep a now false =
      (LoginOutcome.invalidPassword,
        { a with
          loginAttempts := a.loginAttempts + 1,
          lockUntil :=
            if a.loginAttempts + 1 ≥ MAX_LOGIN_ATTEMPTS then
              some (now + LOCK_TIME)
            else none }) := by
  cases hp : a.password with
  | none => exact absurd hp hpw
  | some d =>
    simp only [loginStep, incrementLoginAttempts, lockExpired, isLocked,
      comparePassword_false, hp, hl]
    simp

/-- Failed attempts strictly below the threshold only advance the counter;
the lock stays clear. -/
lemma failedLoginFold_below (a : Account) (ts : List Nat)
    (hpw : a.password ≠ none) (hl : a.lockUntil = none)
    (hcount : a.loginAttempts + ts.length < MAX_LOGIN_ATTEMPTS) :
    failedLoginFold a ts = { a with loginAttempts := a.loginAttempts + ts.length } := by
  induction ts generalizing a with
  | nil =>
    simp [failedLoginFold]
  | cons t ts ih =>
    have hlt : ¬ (a.loginAttempts + 1 ≥ MAX_LOGIN_ATTEMPTS) := by
      simp only [List.length_cons] at hcount
      omega
    have hstep := loginStep_failed a t hpw hl
    rw [if_neg hlt] at hstep
    have hrec := ih { a with loginAttempts := a.loginAttempts + 1, lockUntil := none }
      hpw rfl
      (by simp only [List.length_cons] at hcount; simp; omega)
    rw [failedLoginFold, List.foldl_cons, hstep]
    rw [failedLoginFold] at hrec
    rw [hrec]
    have harith : a.loginAttempts + 1 + ts.length = a.loginAttempts + (ts.length + 1) := by
      omega
    simp [List.length_cons, hl, harith]

/-- C1: after exactly 5 consecutive failed password verifications the account
becomes locked for 2 hours from the 5th failure; before that window elapses a
6th login attempt — even with the correct password — is rejected as
`accountLocked` (HTTP 401) without mutating the account. -/
theorem lockout_after_five_failures
    (a0 s4 s5 : Account) (t1 t2 t3 t4 t5 : Nat)
    (hpw : a0.password ≠ none) (h0 : a0.loginAttempts = 0)
    (hl : a0.lockUntil = none)
    (hs4 : s4 = failedLoginFold a0 [t1, t2, t3, t4])
    (hs5 : s5 = (loginStep s4 t5 false).2) :
    (s4.lockUntil = none ∧ s4.loginAttempts = 4) ∧
    (loginStep s4 t5 false).1 = LoginOutcome.invalidPassword ∧
    s5.loginAttempts = 5 ∧ s5.lockUntil = some (t5 + LOCK_TIME) ∧
    (∀ t, isLocked s5 t = true ↔ t < t5 + LOCK_TIME) ∧
    (∀ t6 ok, t6 < t5 + LOCK_TIME →
      loginRoute (true, 0) (some s5) t6 ok =
        (LoginOutcome.accountLocked, some s5) ∧
      LoginOutcome.accountLocked.status = 401) := by
  have hfold := failedLoginFold_below a0 [t1, t2, t3, t4] hpw hl
    (by simp [h0, MAX_LOGIN_ATTEMPTS])
  rw [hfold] at hs4
  have hs4pw : s4.password ≠ none := by rw [hs4]; exact hpw
  have hs4l : s4.lockUntil = none := by rw [hs4]; exact hl
  have hs4c : s4.loginAttempts = 4 := by rw [hs4]; simp [h0]
  have hstep5 := loginStep_failed s4 t5 hs4pw hs4l
  have hs5c : s5.loginAttempts = 5 := by
    rw [hs5, hstep5]
    simp [hs4c]
  have hs5l : s5.lockUntil = some (t5 + LOCK_TIME) := by
    rw [hs5, hstep5]
    simp [hs4c, MAX_LOGIN_ATTEMPTS]
  have hs5pw : s5.password ≠ none := by
    rw [hs5, hstep5]
    exact hs4pw
  refine ⟨⟨hs4l, hs4c⟩, by rw [hstep5], hs5c, hs5l, ?_, ?_⟩
  · intro t
    simp [isLocked, hs5l]
  · intro t6 ok h6
    have hlock : isLocked s5 t6 = true := by simp [isLocked, hs5l, h6]
    have hnpw : ¬ (s5.password = none ∧ s5.provider ≠ Provider.credentials) :=
      fun hcont => hs5pw hcont.1
    refine ⟨?_, rfl⟩
    simp [loginRoute, loginStep, hnpw, hlock]

/-- A fresh credentials account with a stored password digest, used to
instantiate the lockout theorems on concrete input. -/
def sampleAccount : Account :=
  { id := "u1", email := "alice@example.com", password := some "digest",
    firstName := "Alice", lastName := "L", avatar := "",
    provider := Provider.credentials, providerId := none,
    emailVerified := false, lastLogin := none,
    loginAttempts := 0, lockUntil := none }

/-- Witness for C1: five failed attempts at time 0 lock `sampleAccount`; a
6th attempt at time 1 with the correct password is rejected as locked and
leaves the account unchanged. -/
theorem lockout_after_five_failures_witness :
    loginRoute (true, 0)
        (some (loginStep (failedLoginFold sampleAccount [0, 0, 0, 0]) 0 false).2)
        1 true =
      (LoginOutcome.accountLocked,
        some (loginStep (failedLoginFold sampleAccount [0, 0, 0, 0]) 0 false).2) :=
  (((lockout_after_five_failures sampleAccount
      (failedLoginFold sampleAccount [0, 0, 0, 0])
      (loginStep (failedLoginFold sampleAccount [0, 0, 0, 0]) 0 false).2
      0 0 0 0 0 (by decide) (by decide) (by decide) rfl rfl).2.2.2.2.2
    1 true (by decide)).1)

/-- C4: `incrementLoginAttempts` resets the counter to 1 and clears the lock
when the existing lock has expired; otherwise it increments the counter, sets
a 2-hour lock exactly when the post-increment count reaches the threshold of
5 on a not-currently-locked account, and leaves the lock field untouched
otherwise. -/
theorem incrementLoginAttempts_spec (a : Account) (now : Nat) :
    (lockExpired a now = true →
      incrementLoginAttempts a now = { a with loginAttempts := 1, lockUntil := none }) ∧
    (lockExpired a now = false →
      (incrementLoginAttempts a now).loginAttempts = a.loginAttempts + 1 ∧
      (a.loginAttempts + 1 ≥ 5 → isLocked a now = false →
        (incrementLoginAttempts a now).lockUntil = some (now + 2 * 60 * 60 * 1000)) ∧
      (a.loginAttempts + 1 < 5 ∨ isLocked a now = true →
        (incrementLoginAttempts a now).lockUntil = a.lockUntil)) := by
  refine ⟨fun hexp => ?_, fun hexp => ⟨?_, fun hth hnl => ?_, fun hside => ?_⟩⟩
  · simp [incrementLoginAttempts, hexp]
  · simp [incrementLoginAttempts, hexp]
  · simp [incrementLoginAttempts, hexp, MAX_LOGIN_ATTEMPTS, LOCK_TIME, hth, hnl]
  · have hni : ¬ (a.loginAttempts + 1 ≥ MAX_LOGIN_ATTEMPTS ∧ ¬ isLocked a now) := by
      rcases hside with hlt | hlk
      · simp [MAX_LOGIN_ATTEMPTS]
        omega
      · simp [hlk]
    simp only [incrementLoginAttempts]
    rw [if_neg (by simp [hexp]), if_neg hni]

/-- Witness for C4: incrementing `sampleAccount` held at 4 prior failed
attempts (no lock) at time 1000 moves the counter to 5 and sets the 2-hour
lock. -/
theorem incrementLoginAttempts_spec_witness :
    (incrementLoginAttempts { sampleAccount with loginAttempts := 4 } 1000).loginAttempts = 5 ∧
    (incrementLoginAttempts { sampleAccount with loginAttempts := 4 } 1000).lockUntil =
      some (1000 + 2 * 60 * 60 * 1000) := by
  refine ⟨?_, ?_⟩
  · exact ((incrementLoginAttempts_spec { sampleAccount with loginAttempts := 4 } 1000).2
      (by decide)).1
  · exact ((incrementLoginAttempts_spec { sampleAccount with loginAttempts := 4 } 1000).2
      (by decide)).2.1 (by decide) (by decide)

/-- C9: `resetLoginAttempts` zeroes the counter, clears the lock and stamps
`lastLogin` in one operation; its result never pairs a zero counter with a
set `lockUntil`. -/
theorem resetLoginAttempts_spec (a : Account) (now : Nat) :
    (resetLoginAttempts a now).loginAttempts = 0 ∧
    (resetLoginAttempts a now).lockUntil = none ∧
    (resetLoginAttempts a now).lastLogin = some now ∧
    ¬ ((resetLoginAttempts a now).loginAttempts = 0 ∧
       (resetLoginAttempts a now).lockUntil ≠ none) := by
  simp [resetLoginAttempts]

/-! ## Password strength validator (`src/lib/utils/security.ts`) -/

/-- JS regex class `[a-z]`. -/
def isLowerAlpha (c : Char) : Bool := 'a' ≤ c ∧ c ≤ 'z'

/-- JS regex class `[A-Z]`. -/
def isUpperAlpha (c : Char) : Bool := 'A' ≤ c ∧ c ≤ 'Z'

/-- JS regex class `\d`. -/
def isDigitChar (c : Char) : Bool := '0' ≤ c ∧ c ≤ '9'

/-- The character class of the symbol criterion regex in
`validatePasswordStrength` (brace characters written via their code points). -/
def symbolChars : List Char :=
  ['!', '@', '#', '$', '%', '^', '&', '*', '(', ')', ',', '.', '?', '\"',
   ':', Char.ofNat 123, Char.ofNat 125, '|', '<', '>']

/-- ASCII lowercasing, modelling the case-insensitivity flag `/i` of the weak
pattern regexes. -/
def lowerChar (c : Char) : Char :=
  if 'A' ≤ c ∧ c ≤ 'Z' then Char.ofNat (c.toNat + 32) else c

/-- `pat` occurs as a contiguous substring of the second list (JS
`/pat/.test`). -/
def hasSubstr (pat : List Char) : List Char → Bool
  | [] => pat.isEmpty
  | c :: rest => pat.isPrefixOf (c :: rest) || hasSubstr pat rest

/-- JS regex `/(.)\1{2,}/`: some character occurs 3+ times consecutively. -/
def hasTripleRepeat : List Char → Bool
  | a :: b :: c :: rest => (a == b && b == c) || hasTripleRepeat (b :: c :: rest)
  | _ => false

/-- The `commonPatterns` check of `validatePasswordStrength`:
`/^123/`, `/password/i`, `/qwerty/i`, `/abc123/i`, `/(.)\1{2,}/`. -/
def weakPatternMatch (password : String) : Bool :=
  ['1', '2', '3'].isPrefixOf password.data ||
  hasSubstr "password".data (password.data.map lowerChar) ||
  hasSubstr "qwerty".data (password.data.map lowerChar) ||
  hasSubstr "abc123".data (password.data.map lowerChar) ||
  hasTripleRepeat password.data

/-- Result record of `validatePasswordStrength`. -/
structure PasswordStrength where
  isValid : Bool
  score : Nat
  feedback : List String
deriving DecidableEq, Repr

/-- `validatePasswordStrength` from `security.ts`: six scored criteria, a
2-point penalty clamped at 0 (`Math.max(0, score - 2)`, here `Nat`
subtraction) when a common weak pattern matches, validity at score ≥ 4, and
one feedback string per missing criterion, in source order. -/
def validatePasswordStrength (password : String) : PasswordStrength :=
  let score1 := if 8 ≤ password.length then 1 else 0
  let score2 := if 12 ≤ password.length then score1 + 1 else score1
  let score3 := if password.data.any isLowerAlpha then score2 + 1 else score2
  let score4 := if password.data.any isUpperAlpha then score3 + 1 else score3
  let score5 := if password.data.any isDigitChar then score4 + 1 else score4
  let score6 := if password.data.any (fun c => symbolChars.contains c) then score5 + 1
    else score5
  let score7 := if weakPatternMatch password then score6 - 2 else score6
  let feedback :=
    (if 8 ≤ password.length then [] else ["Password should be at least 8 characters"]) ++
    (if password.data.any isLowerAlpha then [] else ["Add lowercase letters"]) ++
    (if password.data.any isUpperAlpha then [] else ["Add uppercase letters"]) ++
    (if password.data.any isDigitChar then [] else ["Add numbers"]) ++
    (if password.data.any (fun c => symbolChars.contains c) then []
      else ["Add special characters"]) ++
    (if weakPatternMatch password then ["Avoid common patterns"] else [])
  { isValid := 4 ≤ score7, score := score7, feedback := feedback }

/-- Number of the six scored criteria a password meets. -/
def criteriaCount (password : String) : Nat :=
  (if 8 ≤ password.length then 1 else 0) +
  (if 12 ≤ password.length then 1 else 0) +
  (if password.data.any isLowerAlpha then 1 else 0) +
  (if password.data.any isUpperAlpha then 1 else 0) +
  (if password.data.any isDigitChar then 1 else 0) +
  (if password.data.any (fun c => symbolChars.contains c) then 1 else 0)

/-- The weak-pattern list exactly as the specification words it: leading
`123`, the words `password` or `qwerty`, 3+ repeated characters.  (The source
additionally checks `abc123`; this definition follows the spec for
comparison.) -/
def claimWeakPattern (password : String) : Bool :=
  ['1', '2', '3'].isPrefixOf password.data ||
  hasSubstr "password".data (password.data.map lowerChar) ||
  hasSubstr "qwerty".data (password.data.map lowerChar) ||
  hasTripleRepeat password.data

/-- The score as the specification's formula describes it. -/
def claimScore (password : String) : Nat :=
  if claimWeakPattern password then criteriaCount password - 2
  else criteriaCount password

set_option maxHeartbeats 1600000 in
lemma validatePasswordStrength_score (p : String) :
    (validatePasswordStrength p).score =
      if weakPatternMatch p then criteriaCount p - 2 else criteriaCount p := by
  by_cases h1 : 8 ≤ p.length <;>
  by_cases h2 : 12 ≤ p.length <;>
  cases h3 : p.data.any isLowerAlpha <;>
  cases h4 : p.data.any isUpperAlpha <;>
  cases h5 : p.data.any isDigitChar <;>
  cases h6 : p.data.any (fun c => symbolChars.contains c) <;>
  cases h7 : weakPatternMatch p <;>
  simp only [validatePasswordStrength, criteriaCount, h1, h2, h3, h4, h5, h6, h7] <;>
  simp

lemma validatePasswordStrength_isValid (p : String) :
    (validatePasswordStrength p).isValid =
      decide (4 ≤ (validatePasswordStrength p).score) := rfl

/-- C5 counterexample: `"XYabc123!"` meets five criteria and matches none of
the weak patterns the claim lists, so the claim predicts score 5 and
validity; the source's extra `/abc123/i` pattern drops the computed score to
3 and rejects it. -/
theorem passwordStrength_claim_counterexample :
    (validatePasswordStrength "XYabc123!").score = 3 ∧
    (validatePasswordStrength "XYabc123!").isValid = false ∧
    claimWeakPattern "XYabc123!" = false ∧
    criteriaCount "XYabc123!" = 5 ∧
    claimScore "XYabc123!" = 5 ∧
    (validatePasswordStrength "XYabc123!").score ≠ claimScore "XYabc123!" := by
  decide

/-- C5 (amended): the score is the count of met criteria, reduced by 2
(clamped at 0) when one of the source's weak patterns — the claim's list plus
the literal `abc123` — matches; validity iff score ≥ 4; exactly 4 criteria
with no weak match is valid, 3 criteria is invalid, and a weak match that
would otherwise score 4 drops to 2 and is invalid. -/
theorem passwordStrength_amended (p : String) :
    (validatePasswordStrength p).score =
      (if weakPatternMatch p then criteriaCount p - 2 else criteriaCount p) ∧
    ((validatePasswordStrength p).isValid = true ↔
      4 ≤ (validatePasswordStrength p).score) ∧
    (criteriaCount p = 4 → weakPatternMatch p = false →
      (validatePasswordStrength p).isValid = true) ∧
    (criteriaCount p = 3 → (validatePasswordStrength p).isValid = false) ∧
    (criteriaCount p = 4 → weakPatternMatch p = true →
      (validatePasswordStrength p).score = 2 ∧
      (validatePasswordStrength p).isValid = false) := by
  have hs := validatePasswordStrength_score p
  have hv := validatePasswordStrength_isValid p
  refine ⟨hs, ?_, ?_, ?_, ?_⟩
  · rw [hv]
    simp
  · intro hc hw
    rw [hv, hs, hw, hc]
    simp
  · intro hc
    rw [hv, hs, hc]
    split_ifs <;> simp
  · intro hc hw
    rw [hs, hv, hs, hw, hc]
    simp

/-- Witness for the amended C5 on concrete passwords: `"Abcd1234"` meets
exactly 4 criteria and no weak pattern (valid); `"Abcd12"` meets 3
(invalid); `"Abcdddd1"` meets 4 but repeats a character (score 2, invalid). -/
theorem passwordStrength_amended_witness :
    (validatePasswordStrength "Abcd1234").isValid = true ∧
    (validatePasswordStrength "Abcd12").isValid = false ∧
    (validatePasswordStrength "Abcdddd1").score = 2 ∧
    (validatePasswordStrength "Abcdddd1").isValid = false :=
  ⟨(passwordStrength_amended "Abcd1234").2.2.1 (by decide) (by decide),
   (passwordStrength_amended "Abcd12").2.2.2.1 (by decide),
   ((passwordStrength_amended "Abcdddd1").2.2.2.2 (by decide) (by decide)).1,
   ((passwordStrength_amended "Abcdddd1").2.2.2.2 (by decide) (by decide)).2⟩

/-! ## Login-specific exponential backoff (`rateLimiter.ts`,
`checkLoginRateLimit` / `resetLoginAttempts` on the `loginAttempts` map) -/

/-- An entry of the `loginAttempts` map: `{ count, lastAttempt }`. -/
structure LoginAttemptEntry where
  count : Nat
  lastAttempt : Nat
deriving DecidableEq, Repr

/-- The result of `checkLoginRateLimit` together with the state of the map
entry for the `(ip, email)` key after the call. -/
structure LoginRateResult where
  allowed : Bool
  waitTime : Nat
  entry : Option LoginAttemptEntry
deriving DecidableEq, Repr

/-- `checkLoginRateLimit(ip, email)`, acting on the entry stored for the key
`login:ip:email`: no entry means the attempt is allowed and recorded; with an
entry, the backoff wait is `min(2^(count-1) seconds, 30 minutes)`; a retry
after the wait is allowed and advances the counter (resetting it to 1 after
30 minutes of inactivity); an earlier retry is denied with the remaining wait
in ceiled whole seconds and leaves the entry unchanged. -/
def checkLoginRateLimit (entry : Option LoginAttemptEntry) (now : Nat) :
    LoginRateResult :=
  match entry with
  | none =>
    { allowed := true, waitTime := 0,
      entry := some { count := 1, lastAttempt := now } }
  | some attempt =>
    let waitTime := min (2 ^ (attempt.count - 1) * 1000) (30 * 60 * 1000)
    let timeSinceLastAttempt := now - attempt.lastAttempt
    if timeSinceLastAttempt ≥ waitTime then
      if timeSinceLastAttempt ≥ 30 * 60 * 1000 then
        { allowed := true, waitTime := 0,
          entry := some { count := 1, lastAttempt := now } }
      else
        { allowed := true, waitTime := 0,
          entry := some { count := attempt.count + 1, lastAttempt := now } }
    else
      { allowed := false,
        waitTime := (waitTime - timeSinceLastAttempt + 999) / 1000,
        entry := some attempt }

/-- `resetLoginAttempts(ip, email)` from `rateLimiter.ts` (distinct from the
account-level method of the same name): deletes the map entry. -/
def resetLoginRateLimit (_entry : Option LoginAttemptEntry) :
    Option LoginAttemptEntry := none

/-- C6 counterexample: the second attempt, made 1 second after the first, is
allowed by the code, although the claim requires a wait of at least
`min(2^(2-1), 1800) = 2` seconds before attempt 2. -/
theorem loginBackoff_claim_counterexample :
    (checkLoginRateLimit (checkLoginRateLimit none 0).entry 1000).allowed = true ∧
    (1000 - 0) / 1000 < min (2 ^ (2 - 1)) 1800 := by
  decide

/-- C6 (amended): an attempt against a stored entry with counter `c` (the
(c+1)-st attempt, so attempt `n` sees counter `n-1`) is allowed only after at
least `min(2^(c-1), 1800)` seconds since the recorded attempt; a denied
attempt leaves the entry unchanged and reports a positive wait; an allowed
retry advances the counter, resetting it to 1 after 30 minutes of
inactivity; a successful login clears the entry, and with no entry the next
attempt is allowed with zero wait. -/
theorem loginBackoff_amended (c la now : Nat) (hc : 1 ≤ c) :
    ((checkLoginRateLimit (some { count := c, lastAttempt := la }) now).allowed = true →
      min (2 ^ (c - 1) * 1000) (30 * 60 * 1000) ≤ now - la) ∧
    ((checkLoginRateLimit (some { count := c, lastAttempt := la }) now).allowed = false →
      (checkLoginRateLimit (some { count := c, lastAttempt := la }) now).entry =
        some { count := c, lastAttempt := la } ∧
      0 < (checkLoginRateLimit (some { count := c, lastAttempt := la }) now).waitTime) ∧
    (min (2 ^ (c - 1) * 1000) (30 * 60 * 1000) ≤ now - la → now - la < 30 * 60 * 1000 →
      (checkLoginRateLimit (some { count := c, lastAttempt := la }) now).entry =
        some { count := c + 1, lastAttempt := now }) ∧
    (30 * 60 * 1000 ≤ now - la →
      (checkLoginRateLimit (some { count := c, lastAttempt := la }) now).entry =
        some { count := 1, lastAttempt := now }) ∧
    (resetLoginRateLimit (some { count := c, lastAttempt := la }) = none ∧
      (checkLoginRateLimit none now).allowed = true ∧
      (checkLoginRateLimit none now).waitTime = 0) := by
  by_cases hge : min (2 ^ (c - 1) * 1000) (30 * 60 * 1000) ≤ now - la
  · by_cases h30 : 30 * 60 * 1000 ≤ now - la
    · have hres : checkLoginRateLimit (some { count := c, lastAttempt := la }) now =
          { allowed := true, waitTime := 0,
            entry := some { count := 1, lastAttempt := now } } := by
        simp [checkLoginRateLimit, hge, h30]
      refine ⟨fun _ => hge, ?_, ?_, fun _ => by rw [hres], rfl, rfl, rfl⟩
      · rw [hres]
        simp
      · intro _ hlt
        exact absurd h30 (by omega)
    · have hres : checkLoginRateLimit (some { count := c, lastAttempt := la }) now =
          { allowed := true, waitTime := 0,
            entry := some { count := c + 1, lastAttempt := now } } := by
        simp [checkLoginRateLimit, hge, h30]
      refine ⟨fun _ => hge, ?_, fun _ _ => by rw [hres], ?_, rfl, rfl, rfl⟩
      · rw [hres]
        simp
      · intro h30'
        exact absurd h30' h30
  · have hres : checkLoginRateLimit (some { count := c, lastAttempt := la }) now =
        { allowed := false,
          waitTime := (min (2 ^ (c - 1) * 1000) (30 * 60 * 1000) - (now - la) + 999) / 1000,
          entry := some { count := c, lastAttempt := la } } := by
      simp [checkLoginRateLimit, hge]
    refine ⟨?_, ?_, ?_, ?_, rfl, rfl, rfl⟩
    · intro hal
      rw [hres] at hal
      simp at hal
    · intro _
      rw [hres]
      refine ⟨rfl, ?_⟩
      show 0 < (min (2 ^ (c - 1) * 1000) (30 * 60 * 1000) - (now - la) + 999) / 1000
      omega
    · intro hge' _
      exact absurd hge' hge
    · intro h30'
      exact absurd (le_trans (Nat.min_le_right _ _) h30') hge

/-- Witness for the amended C6: with a stored counter of 1 (attempt 2), an
attempt exactly 1 second = `min(2^0, 1800)` seconds later is allowed and
advances the counter to 2. -/
theorem loginBackoff_amended_witness :
    min (2 ^ (1 - 1) * 1000) (30 * 60 * 1000) ≤ 1000 - 0 ∧
    (checkLoginRateLimit (some { count := 1, lastAttempt := 0 }) 1000).entry =
      some { count := 2, lastAttempt := 1000 } :=
  ⟨(loginBackoff_amended 1 0 1000 (by decide)).1 (by decide),
   (loginBackoff_amended 1 0 1000 (by decide)).2.2.1 (by decide) (by decide)⟩

/-! ## Generic fixed-window rate limiter (`rateLimiter.ts`, `checkRateLimit`,
`getRateLimitKey`, `rateLimitResponse`, `rateLimitConfigs.auth`) -/

/-- An entry of the `rateLimitStore` map: `{ count, resetTime }`. -/
structure RateLimitEntry where
  count : Nat
  resetTime : Nat
deriving DecidableEq, Repr

/-- A `RateLimitConfig`: `{ windowMs, maxRequests }`. -/
structure RateLimitConfig where
  windowMs : Nat
  maxRequests : Nat
deriving DecidableEq, Repr

/-- `rateLimitConfigs.auth`: 10 requests per 15 minutes. -/
def rateLimitConfigsAuth : RateLimitConfig :=
  { windowMs := 15 * 60 * 1000, maxRequests := 10 }

/-- Result triple of `checkRateLimit`. -/
structure RateLimitResult where
  allowed : Bool
  remaining : Nat
  resetTime : Nat
deriving DecidableEq, Repr

/-- `getRateLimitKey(request)` with the default empty prefix:
`` `${prefix}:${ip}:${path}` ``. -/
def rlKey (ip path : String) : String := ":" ++ ip ++ ":" ++ path

/-- The per-entry body of `checkRateLimit`: a missing or expired entry starts
a fresh window of `cfg.windowMs` counting this request; otherwise the count
is incremented, the request is allowed while the count stays within
`cfg.maxRequests`, and `remaining` is clamped at 0 (`Math.max`). -/
def checkRateLimitEntry (entry : Option RateLimitEntry) (cfg : RateLimitConfig)
    (now : Nat) : RateLimitResult × RateLimitEntry :=
  match entry with
  | none =>
    ({ allowed := true, remaining := cfg.maxRequests - 1,
       resetTime := now + cfg.windowMs },
     { count := 1, resetTime := now + cfg.windowMs })
  | some e =>
    if e.resetTime < now then
      ({ allowed := true, remaining := cfg.maxRequests - 1,
         resetTime := now + cfg.windowMs },
       { count := 1, resetTime := now + cfg.windowMs })
    else
      ({ allowed := decide (e.count + 1 ≤ cfg.maxRequests),
         remaining := cfg.maxRequests - (e.count + 1),
         resetTime := e.resetTime },
       { count := e.count + 1, resetTime := e.resetTime })

/-- `checkRateLimit(request, config)`: looks up the entry under
`getRateLimitKey(request)` in the shared `rateLimitStore`, applies the
per-entry body, and writes the updated entry back. -/
def checkRateLimit (store : String → Option RateLimitEntry) (ip path : String)
    (cfg : RateLimitConfig) (now : Nat) :
    RateLimitResult × (String → Option RateLimitEntry) :=
  let key := rlKey ip path
  let r := checkRateLimitEntry (store key) cfg now
  (r.1, fun k => if k = key then some r.2 else store k)

/-- `rateLimitResponse(resetTime)`: HTTP status 429 together with the
`Retry-After` header value `Math.ceil((resetTime - now) / 1000)` in whole
seconds. -/
def rateLimitResponse (resetTime now : Nat) : Nat × Nat :=
  (429, (resetTime - now + 999) / 1000)

/-- Folding a sequence of `(ip, path, time)` requests through the store. -/
def applyRequests (store : String → Option RateLimitEntry)
    (cfg : RateLimitConfig) (reqs : List (String × String × Nat)) :
    String → Option RateLimitEntry :=
  reqs.foldl (fun st r => (checkRateLimit st r.1 r.2.1 cfg r.2.2).2) store

lemma rlKey_inj (ipA ipB path : String) (h : ipA ≠ ipB) :
    rlKey ipA path ≠ rlKey ipB path := by
  intro he
  apply h
  apply String.ext
  have hd := congrArg String.data he
  simp only [rlKey, String.data_append, List.append_assoc] at hd
  exact List.append_cancel_right (List.append_cancel_left hd)

/-- Requests on one key, all inside the current window, only advance the
count; other keys are untouched. -/
lemma applyRequests_inWindow (ip path : String) (cfg : RateLimitConfig)
    (ts : List Nat) (c r : Nat) (store : String → Option RateLimitEntry)
    (hkey : store (rlKey ip path) = some { count := c, resetTime := r })
    (hts : ∀ t ∈ ts, t ≤ r) :
    (applyRequests store cfg (ts.map fun t => (ip, path, t))) (rlKey ip path) =
      some { count := c + ts.length, resetTime := r } ∧
    ∀ k, k ≠ rlKey ip path →
      (applyRequests store cfg (ts.map fun t => (ip, path, t))) k = store k := by
  induction ts generalizing store c with
  | nil =>
    simp [applyRequests, hkey]
  | cons t ts ih =>
    have htr : ¬ r < t := by
      have := hts t (by simp)
      omega
    have hstep : (checkRateLimit store ip path cfg t).2 =
        fun k => if k = rlKey ip path
          then some { count := c + 1, resetTime := r } else store k := by
      simp [checkRateLimit, checkRateLimitEntry, hkey, htr]
    have hrec := ih (c + 1) ((checkRateLimit store ip path cfg t).2)
      (by rw [hstep]; simp)
      (fun t' ht' => hts t' (by simp [ht']))
    rw [applyRequests, List.map_cons, List.foldl_cons]
    rw [applyRequests] at hrec
    refine ⟨?_, ?_⟩
    · rw [hrec.1]
      simp only [List.length_cons, Option.some.injEq, RateLimitEntry.mk.injEq]
      exact ⟨by omega, trivial⟩
    · intro k hk
      rw [hrec.2 k hk, hstep]
      simp [hk]

/-- C7: starting from an empty store, after an initial auth-endpoint request
from `ipA` at `t0` and nine more within the 15-minute window, the 11th
request from `ipA` still inside the window is rejected (HTTP 429) with a
positive `Retry-After` equal to the ceiled remaining wait in whole seconds,
while a 12th request from a different IP `ipB` in the same window is
allowed: scoping is per requester IP, not a global counter. -/
theorem fixedWindow_perIp (ipA ipB path : String) (t0 t11 t12 : Nat)
    (ts : List Nat) (hip : ipA ≠ ipB) (hlen : ts.length = 9)
    (hts : ∀ t ∈ ts, t ≤ t0 + 15 * 60 * 1000)
    (ht11 : t11 < t0 + 15 * 60 * 1000)
    (s1 s10 : String → Option RateLimitEntry)
    (hs1 : s1 = (checkRateLimit (fun _ => none) ipA path rateLimitConfigsAuth t0).2)
    (hs10 : s10 = applyRequests s1 rateLimitConfigsAuth (ts.map fun t => (ipA, path, t))) :
    (checkRateLimit s10 ipA path rateLimitConfigsAuth t11).1.allowed = false ∧
    (rateLimitResponse
      (checkRateLimit s10 ipA path rateLimitConfigsAuth t11).1.resetTime t11).1 = 429 ∧
    (rateLimitResponse
      (checkRateLimit s10 ipA path rateLimitConfigsAuth t11).1.resetTime t11).2 =
      (t0 + 15 * 60 * 1000 - t11 + 999) / 1000 ∧
    0 < (rateLimitResponse
      (checkRateLimit s10 ipA path rateLimitConfigsAuth t11).1.resetTime t11).2 ∧
    (checkRateLimit (checkRateLimit s10 ipA path rateLimitConfigsAuth t11).2
      ipB path rateLimitConfigsAuth t12).1.allowed = true := by
  have hs1key : s1 (rlKey ipA path) =
      some { count := 1, resetTime := t0 + 15 * 60 * 1000 } := by
    rw [hs1]
    simp [checkRateLimit, checkRateLimitEntry, rateLimitConfigsAuth]
  have hs1off : ∀ k, k ≠ rlKey ipA path → s1 k = none := by
    intro k hk
    rw [hs1]
    simp [checkRateLimit, hk]
  have hfold := applyRequests_inWindow ipA path rateLimitConfigsAuth ts 1
    (t0 + 15 * 60 * 1000) s1 hs1key hts
  rw [← hs10] at hfold
  have hs10key : s10 (rlKey ipA path) =
      some { count := 10, resetTime := t0 + 15 * 60 * 1000 } := by
    rw [hfold.1, hlen]
  have ht11r : ¬ (t0 + 15 * 60 * 1000) < t11 := by omega
  have h11 : checkRateLimit s10 ipA path rateLimitConfigsAuth t11 =
      ({ allowed := false, remaining := 0, resetTime := t0 + 15 * 60 * 1000 },
       fun k => if k = rlKey ipA path
         then some { count := 11, resetTime := t0 + 15 * 60 * 1000 } else s10 k) := by
    simp [checkRateLimit, checkRateLimitEntry, hs10key, ht11r, rateLimitConfigsAuth]
  have hne : rlKey ipB path ≠ rlKey ipA path := rlKey_inj ipB ipA path (Ne.symm hip)
  have hBkey : (checkRateLimit s10 ipA path rateLimitConfigsAuth t11).2
      (rlKey ipB path) = none := by
    rw [h11]
    simp only [hne, if_false, ite_false]
    rw [hfold.2 (rlKey ipB path) hne]
    exact hs1off (rlKey ipB path) hne
  refine ⟨?_, rfl, ?_, ?_, ?_⟩
  · rw [h11]
  · rw [h11]
    rfl
  · rw [h11]
    show 0 < (t0 + 15 * 60 * 1000 - t11 + 999) / 1000
    omega
  · set S := (checkRateLimit s10 ipA path rateLimitConfigsAuth t11).2 with hS
    simp [checkRateLimit, checkRateLimitEntry, hBkey]

/-- Witness for C7 on concrete input: 10 requests from IP `"1.1.1.1"` at time
0, an 11th at time 1 is denied with `Retry-After` 900 seconds, and a request
from `"2.2.2.2"` at time 2 is allowed. -/
theorem fixedWindow_perIp_witness :
    (checkRateLimit
        (applyRequests
          (checkRateLimit (fun _ => none) "1.1.1.1" "/api/auth/login"
            rateLimitConfigsAuth 0).2
          rateLimitConfigsAuth
          ([0, 0, 0, 0, 0, 0, 0, 0, 0].map fun t => ("1.1.1.1", "/api/auth/login", t)))
        "1.1.1.1" "/api/auth/login" rateLimitConfigsAuth 1).1.allowed = false ∧
    0 < (rateLimitResponse
        (checkRateLimit
          (applyRequests
            (checkRateLimit (fun _ => none) "1.1.1.1" "/api/auth/login"
              rateLimitConfigsAuth 0).2
            rateLimitConfigsAuth
            ([0, 0, 0, 0, 0, 0, 0, 0, 0].map fun t => ("1.1.1.1", "/api/auth/login", t)))
          "1.1.1.1" "/api/auth/login" rateLimitConfigsAuth 1).1.resetTime 1).2 ∧
    (checkRateLimit
        (checkRateLimit
          (applyRequests
            (checkRateLimit (fun _ => none) "1.1.1.1" "/api/auth/login"
              rateLimitConfigsAuth 0).2
            rateLimitConfigsAuth
            ([0, 0, 0, 0, 0, 0, 0, 0, 0].map fun t => ("1.1.1.1", "/api/auth/login", t)))
          "1.1.1.1" "/api/auth/login" rateLimitConfigsAuth 1).2
        "2.2.2.2" "/api/auth/login" rateLimitConfigsAuth 2).1.allowed = true := by
  have h := fixedWindow_perIp "1.1.1.1" "2.2.2.2" "/api/auth/login" 0 1 2
    [0, 0, 0, 0, 0, 0, 0, 0, 0] (by decide) (by decide)
    (by intro t ht; simp at ht; omega)
    (by omega) _ _ rfl rfl
  exact ⟨h.1, h.2.2.2.1, h.2.2.2.2⟩

/-! ## Unified authenticator (`auth.config.ts`, `getTokenFromRequest` /
`authenticateRequest`) -/

/-- The claims of a decoded NextAuth session token that `authenticateRequest`
reads: the optional `email`. -/
structure SessionClaims where
  email : Option String
deriving DecidableEq, Repr

/-- The parts of an inbound request the authenticator inspects: the decoded
NextAuth session token (`getToken` result; `none` covers a missing or
invalid artifact and a thrown check), the `authorization` header and the
`token` cookie. -/
structure AuthRequest where
  session : Option SessionClaims
  authHeader : Option String
  tokenCookie : Option String
deriving DecidableEq, Repr

/-- The legacy token payload (`JWTPayload`). -/
structure JWTPayload where
  userId : String
  email : String
deriving DecidableEq, Repr

/-- JS `String.prototype.startsWith`. -/
def strStartsWith (s p : String) : Bool := p.data.isPrefixOf s.data

/-- JS `String.prototype.substring(n)` (drop the first `n` characters). -/
def strDrop (s : String) (n : Nat) : String := String.mk (s.data.drop n)

lemma isPrefixOf_append (p r : List Char) : p.isPrefixOf (p ++ r) = true := by
  induction p with
  | nil => simp [List.isPrefixOf]
  | cons c cs ih => simp [List.isPrefixOf, ih]

lemma strStartsWith_append (p t : String) : strStartsWith (p ++ t) p = true := by
  simp [strStartsWith, String.data_append, isPrefixOf_append]

lemma strDrop_append7 (t : String) : strDrop ("Bearer " ++ t) 7 = t := by
  apply String.ext
  show (("Bearer " ++ t).data).drop 7 = t.data
  rw [String.data_append]
  have h7 : (7 : Nat) = "Bearer ".data.length := rfl
  rw [h7, List.drop_left]

/-- The cookie fallback of `getTokenFromRequest`:
`tokenCookie?.value` is returned only when truthy (non-empty). -/
def cookieToken (req : AuthRequest) : Option String :=
  match req.tokenCookie with
  | some v => if v ≠ "" then some v else none
  | none => none

/-- `getTokenFromRequest(request)`: an `Authorization: Bearer ...` header
wins; otherwise the non-empty `token` cookie; otherwise nothing. -/
def getTokenFromRequest (req : AuthRequest) : Option String :=
  match req.authHeader with
  | some h =>
    if strStartsWith h "Bearer " then some (strDrop h 7)
    else cookieToken req
  | none => cookieToken req

/-- The legacy fallback of `authenticateRequest`: extract a token and verify
it with `verifyToken` (the `jwt.ts` verifier, passed as a parameter). -/
def legacyAuthenticate (verifyTok : String → Option JWTPayload)
    (req : AuthRequest) : Option JWTPayload × Option String :=
  match getTokenFromRequest req with
  | none => (none, some "No authentication token provided")
  | some t =>
    match verifyTok t with
    | none => (none, some "Invalid or expired token")
    | some decoded => (some decoded, none)

/-- `authenticateRequest(request)`: try the NextAuth session token first and,
when it carries an email that resolves in the user store, answer from
current store state; otherwise fall back to the legacy token. -/
def authenticateRequest (store : String → Option Account)
    (verifyTok : String → Option JWTPayload) (req : AuthRequest) :
    Option JWTPayload × Option String :=
  match req.session with
  | some claims =>
    match claims.email with
    | some e =>
      match store e with
      | some dbUser => (some { userId := dbUser.id, email := dbUser.email }, none)
      | none => legacyAuthenticate verifyTok req
    | none => legacyAuthenticate verifyTok req
  | none => legacyAuthenticate verifyTok req

/-- C2: the authenticator tries the OAuth session artifact first and answers
from current store state when its email resolves; on any session-path
failure it falls back to the legacy token, extracted with header precedence
over the `token` cookie; when both paths fail it returns a null principal
with an error reason. -/
theorem authenticateRequest_resolution_order (store : String → Option Account)
    (verifyTok : String → Option JWTPayload) (req : AuthRequest) :
    (∀ claims e u, req.session = some claims → claims.email = some e →
      store e = some u →
      authenticateRequest store verifyTok req =
        (some { userId := u.id, email := u.email }, none)) ∧
    ((req.session = none ∨
      ∃ claims, req.session = some claims ∧
        (claims.email = none ∨ ∃ e, claims.email = some e ∧ store e = none)) →
      authenticateRequest store verifyTok req = legacyAuthenticate verifyTok req) ∧
    (∀ t c, getTokenFromRequest
        { req with authHeader := some ("Bearer " ++ t), tokenCookie := some c } =
      some t) ∧
    (∀ vt r, getTokenFromRequest r = none →
      legacyAuthenticate vt r = (none, some "No authentication token provided")) ∧
    (∀ vt r t, getTokenFromRequest r = some t → vt t = none →
      legacyAuthenticate vt r = (none, some "Invalid or expired token")) := by
  refine ⟨?_, ?_, ?_, ?_, ?_⟩
  · intro claims e u h1 h2 h3
    simp [authenticateRequest, h1, h2, h3]
  · rintro (hs | ⟨claims, hs, hee | ⟨e, hee, hst⟩⟩)
    · simp [authenticateRequest, hs]
    · simp [authenticateRequest, hs, hee]
    · simp [authenticateRequest, hs, hee, hst]
  · intro t c
    simp [getTokenFromRequest, strStartsWith_append, strDrop_append7]
  · intro vt r h
    simp [legacyAuthenticate, h]
  · intro vt r t ht hv
    simp [legacyAuthenticate, ht, hv]

/-- A user store holding only `sampleAccount` under its email. -/
def sampleStore : String → Option Account :=
  fun e => if e = "alice@example.com" then some sampleAccount else none

/-- Witness for C2: a request with a session artifact for Alice's email
resolves to a principal built from the stored account; with no session and
no tokens the result is a null principal with an error reason. -/
theorem authenticateRequest_resolution_order_witness :
    authenticateRequest sampleStore (fun _ => none)
        { session := some { email := some "alice@example.com" },
          authHeader := none, tokenCookie := none } =
      (some { userId := "u1", email := "alice@example.com" }, none) ∧
    legacyAuthenticate (fun _ => none)
        { session := none, authHeader := none, tokenCookie := none } =
      (none, some "No authentication token provided") :=
  ⟨(authenticateRequest_resolution_order sampleStore (fun _ => none)
      { session := some { email := some "alice@example.com" },
        authHeader := none, tokenCookie := none }).1
      { email := some "alice@example.com" } "alice@example.com" sampleAccount
      rfl rfl (by decide),
   (authenticateRequest_resolution_order sampleStore (fun _ => none)
      { session := none, authHeader := none, tokenCookie := none }).2.2.2.1
      (fun _ => none)
      { session := none, authHeader := none, tokenCookie := none } rfl⟩

/-! ## Registration against an existing account
(`src/app/api/auth/login/route.ts`, register POST, lines 180-236) -/

/-- The parts of the register handler's response the claim is about. -/
structure RegResponse where
  status : Nat
  message : String
  token : Option String
  account : Account
deriving Repr

/-- The existing-account branch of the register handler: an OAuth account
(`provider !== 'credentials'`) with no password hash gets the submitted
password attached (hashed by the pre-save hook, `hash` standing for bcrypt)
and the sanitized names, and receives HTTP 200 with a freshly issued token
(`issueTok` standing for `generateToken`) and the password-set message; any
other existing account is rejected with HTTP 409. -/
def registerExistingUser (hash : String → String)
    (issueTok : String → String → String) (u : Account)
    (pw fn ln : String) : RegResponse :=
  if u.provider ≠ Provider.credentials ∧ u.password = none then
    let updated := { u with password := some (hash pw), firstName := fn, lastName := ln }
    { status := 200,
      message := "Password set successfully. You can now login with email and password.",
      token := some (issueTok updated.id updated.email),
      account := updated }
  else
    { status := 409,
      message := "An account with this email already exists. Please login instead.",
      token := none,
      account := u }

/-- C3: registering an email that already has an account sets the password on
a passwordless non-credentials (OAuth) account — hashing it, updating the
names, issuing a token, with a password-set message and HTTP 200 — and
rejects with HTTP 409 and a log-in-instead message when a password hash
already exists. -/
theorem registerExisting_spec (hash : String → String)
    (issueTok : String → String → String) (u : Account) (pw fn ln : String) :
    (u.provider ≠ Provider.credentials → u.password = none →
      (registerExistingUser hash issueTok u pw fn ln).status = 200 ∧
      (registerExistingUser hash issueTok u pw fn ln).account.password =
        some (hash pw) ∧
      (registerExistingUser hash issueTok u pw fn ln).account.firstName = fn ∧
      (registerExistingUser hash issueTok u pw fn ln).account.lastName = ln ∧
      (registerExistingUser hash issueTok u pw fn ln).token =
        some (issueTok u.id u.email) ∧
      (registerExistingUser hash issueTok u pw fn ln).message =
        "Password set successfully. You can now login with email and password.") ∧
    (∀ d, u.password = some d →
      (registerExistingUser hash issueTok u pw fn ln).status = 409 ∧
      (registerExistingUser hash issueTok u pw fn ln).message =
        "An account with this email already exists. Please login instead.") := by
  constructor
  · intro hp hpw
    simp [registerExistingUser, hp, hpw]
  · intro d hpw
    have hcond : ¬ (u.provider ≠ Provider.credentials ∧ u.password = none) := by
      simp [hpw]
    simp [registerExistingUser, hcond]

/-- Bob's OAuth-created account: Google provider, no password hash. -/
def oauthBob : Account :=
  { id := "u2", email := "bob@example.com", password := none,
    firstName := "Bob", lastName := "B", avatar := "",
    provider := Provider.google, providerId := some "g-77",
    emailVerified := true, lastLogin := none,
    loginAttempts := 0, lockUntil := none }

/-- Witness for C3: registering Bob's email sets his password (HTTP 200);
registering Alice's email, which has a password hash, conflicts (409). -/
theorem registerExisting_spec_witness :
    (registerExistingUser (fun s => s ++ "#h") (fun a b => a ++ "|" ++ b)
      oauthBob "Passw0rd!" "Bob" "Builder").status = 200 ∧
    (registerExistingUser (fun s => s ++ "#h") (fun a b => a ++ "|" ++ b)
      sampleAccount "Passw0rd!" "Alice" "L").status = 409 :=
  ⟨((registerExisting_spec (fun s => s ++ "#h") (fun a b => a ++ "|" ++ b)
      oauthBob "Passw0rd!" "Bob" "Builder").1 (by decide) rfl).1,
   ((registerExisting_spec (fun s => s ++ "#h") (fun a b => a ++ "|" ++ b)
      sampleAccount "Passw0rd!" "Alice" "L").2 "digest" rfl).1⟩

/-! ## Request-boundary middleware (`middleware` in the snapshot's
`AuthContext.tsx` trailing section) -/

/-- `protectedPaths`. -/
def protectedPaths : List String := ["/dashboard"]

/-- `authPaths`. -/
def authPaths : List String := ["/auth/login", "/auth/register"]

/-- The three control-flow outcomes of the middleware. -/
inductive MiddlewareResult
  | redirectLogin (callbackUrl : String)
  | redirectDashboard
  | next
deriving DecidableEq, Repr

/-- `!!(token || legacyToken)` (line 241): the NextAuth token decoded, or the
`token` cookie value is truthy (non-empty); the legacy token is never
verified here. -/
def middlewareIsAuthenticated (session : Option Unit)
    (legacyToken : Option String) : Bool :=
  session.isSome ||
    (match legacyToken with
     | some v => v ≠ ""
     | none => false)

/-- The middleware's routing decision: unauthenticated requests to a
protected path redirect to login carrying the pathname as callback;
authenticated requests to an auth-entry path redirect to the dashboard;
everything else passes through. -/
def middleware (session : Option Unit) (legacyToken : Option String)
    (pathname : String) : MiddlewareResult :=
  let isAuthenticated := middlewareIsAuthenticated session legacyToken
  let isProtectedPath := protectedPaths.any fun p => strStartsWith pathname p
  let isAuthPath := authPaths.any fun p => strStartsWith pathname p
  if isProtectedPath ∧ ¬ isAuthenticated then .redirectLogin pathname
  else if isAuthPath ∧ isAuthenticated then .redirectDashboard
  else .next

/-- C10: any non-empty `token` cookie value — valid or not — makes the
middleware treat the request as authenticated: it is never redirected to
login, and on an auth-entry path it is redirected to the dashboard. -/
theorem middleware_trusts_nonempty_cookie (session : Option Unit)
    (v pathname : String) (hv : v ≠ "") :
    middlewareIsAuthenticated session (some v) = true ∧
    (∀ cb, middleware session (some v) pathname ≠ MiddlewareResult.redirectLogin cb) ∧
    (authPaths.any (fun p => strStartsWith pathname p) = true →
      middleware session (some v) pathname = MiddlewareResult.redirectDashboard) := by
  have hauth : middlewareIsAuthenticated session (some v) = true := by
    simp [middlewareIsAuthenticated, hv]
  refine ⟨hauth, ?_, ?_⟩
  · intro cb
    simp only [middleware, hauth]
    split
    · simp_all
    · split <;> simp_all
  · intro hap
    simp [middleware, hauth, hap]

/-- Witness for C10: with no session and the unverifiable cookie value
`"garbage"`, the middleware reports authenticated and redirects
`/auth/login` to the dashboard. -/
theorem middleware_trusts_nonempty_cookie_witness :
    middlewareIsAuthenticated none (some "garbage") = true ∧
    middleware none (some "garbage") "/auth/login" =
      MiddlewareResult.redirectDashboard :=
  ⟨(middleware_trusts_nonempty_cookie none "garbage" "/auth/login" (by decide)).1,
   (middleware_trusts_nonempty_cookie none "garbage" "/auth/login"
      (by decide)).2.2 (by decide)⟩

/-! ## Legacy token issuer/verifier

The `jwt.ts` implementation is absent from the repository snapshot (only its
re-exports in `src/lib/auth/index.ts` and its callers are present), so this
section is modelled from the spec (§4.3): `issue(userId, email) -> token`
with a fixed 7-day expiry, symmetric-signed with a process-wide secret;
`verify` yields the original pair before expiry and `invalid` on signature
mismatch, malformed payload, or past expiry.  The signed wire format is a
bit list; the signature is an idealized deterministic keyed tag (injective
in the message for a fixed secret), which is the standard idealization of an
unforgeable MAC. -/

/-- Little-endian bits with structural fuel (`fuel ≥ n` suffices). -/
def natBitsAux : Nat → Nat → List Bool
  | 0, _ => []
  | fuel + 1, n =>
    if n = 0 then []
    else decide (n % 2 = 1) :: natBitsAux fuel (n / 2)

/-- Little-endian bits of a natural number (empty for 0). -/
def natBits (n : Nat) : List Bool := natBitsAux n n

/-- Value of a little-endian bit list. -/
def bitsToNat : List Bool → Nat
  | [] => 0
  | b :: bs => (if b then 1 else 0) + 2 * bitsToNat bs

lemma bitsToNat_natBitsAux (fuel : Nat) :
    ∀ n, n ≤ fuel → bitsToNat (natBitsAux fuel n) = n := by
  induction fuel with
  | zero =>
    intro n h
    have hz : n = 0 := by omega
    subst hz
    simp [natBitsAux, bitsToNat]
  | succ fuel ih =>
    intro n h
    by_cases hz : n = 0
    · subst hz
      simp [natBitsAux, bitsToNat]
    · simp only [natBitsAux, if_neg hz, bitsToNat]
      rw [ih (n / 2) (by omega)]
      by_cases hm : n % 2 = 1 <;> simp [hm] <;> omega

lemma bitsToNat_natBits (n : Nat) : bitsToNat (natBits n) = n :=
  bitsToNat_natBitsAux n n le_rfl

/-- Prefix-free encoding of a natural number: the bit length in unary, a
separator, then the bits. -/
def encNat (n : Nat) : List Bool :=
  List.replicate (natBits n).length true ++ false :: natBits n

/-- Parser state for `decNat`: `k` counts the unary length bits read. -/
def decNatAux : Nat → List Bool → Option (Nat × List Bool)
  | _, [] => none
  | k, true :: rest => decNatAux (k + 1) rest
  | k, false :: rest =>
    if k ≤ rest.length then some (bitsToNat (rest.take k), rest.drop k)
    else none

/-- Prefix-free decoder matching `encNat`; returns the value and the rest. -/
def decNat (bs : List Bool) : Option (Nat × List Bool) := decNatAux 0 bs

lemma decNatAux_replicate (j : Nat) :
    ∀ k bs, decNatAux k (List.replicate j true ++ bs) = decNatAux (k + j) bs := by
  induction j with
  | zero =>
    intro k bs
    simp
  | succ j ih =>
    intro k bs
    show decNatAux (k + 1) (List.replicate j true ++ bs) = decNatAux (k + (j + 1)) bs
    rw [ih (k + 1) bs]
    congr 1
    omega

lemma decNat_encNat (n : Nat) (rest : List Bool) :
    decNat (encNat n ++ rest) = some (n, rest) := by
  unfold decNat encNat
  rw [List.append_assoc, decNatAux_replicate]
  show decNatAux (0 + (natBits n).length) (false :: (natBits n ++ rest)) = _
  simp [decNatAux, List.take_left, List.drop_left, bitsToNat_natBits]

lemma decNat_encNat_nil (n : Nat) : decNat (encNat n) = some (n, []) := by
  have h := decNat_encNat n []
  simpa using h

/-- A character as its framed code point. -/
def encChar (c : Char) : List Bool := encNat c.toNat

/-- Decoder matching `encChar`. -/
def decChar (bs : List Bool) : Option (Char × List Bool) :=
  match decNat bs with
  | some (n, rest) => some (Char.ofNat n, rest)
  | none => none

lemma decChar_encChar (c : Char) (rest : List Bool) :
    decChar (encChar c ++ rest) = some (c, rest) := by
  simp [decChar, encChar, decNat_encNat, Char.ofNat_toNat]

/-- Reads exactly `k` characters. -/
def decChars : Nat → List Bool → Option (List Char × List Bool)
  | 0, bs => some ([], bs)
  | k + 1, bs =>
    match decChar bs with
    | some (c, rest) =>
      match decChars k rest with
      | some (cs, rest2) => some (c :: cs, rest2)
      | none => none
    | none => none

lemma decChars_enc (cs : List Char) :
    ∀ rest, decChars cs.length ((cs.map encChar).flatten ++ rest) = some (cs, rest) := by
  induction cs with
  | nil =>
    intro rest
    simp [decChars]
  | cons c cs ih =>
    intro rest
    simp [decChars, List.append_assoc, decChar_encChar, ih]

/-- A string as its framed length followed by its characters. -/
def encStr (s : String) : List Bool :=
  encNat s.data.length ++ (s.data.map encChar).flatten

/-- Decoder matching `encStr`. -/
def decStr (bs : List Bool) : Option (String × List Bool) :=
  match decNat bs with
  | some (k, rest) =>
    match decChars k rest with
    | some (cs, rest2) => some (String.mk cs, rest2)
    | none => none
  | none => none

lemma decStr_encStr (s : String) (rest : List Bool) :
    decStr (encStr s ++ rest) = some (s, rest) := by
  unfold decStr encStr
  rw [List.append_assoc, decNat_encNat]
  show (match decChars s.data.length ((s.data.map encChar).flatten ++ rest) with
    | some (cs, rest2) => some (String.mk cs, rest2)
    | none => none) = some (s, rest)
  rw [decChars_enc]

/-- The signed legacy-token payload: `{ userId, email, issued-at, expiry }`
(spec §3, "Legacy Token"). -/
structure TokenPayload where
  userId : String
  email : String
  iat : Nat
  exp : Nat
deriving DecidableEq, Repr

/-- Serialized payload. -/
def encPayload (p : TokenPayload) : List Bool :=
  encStr p.userId ++ encStr p.email ++ encNat p.iat ++ encNat p.exp

/-- Payload parser; rejects trailing garbage. -/
def decPayload (bs : List Bool) : Option TokenPayload :=
  match decStr bs with
  | some (u, r1) =>
    match decStr r1 with
    | some (e, r2) =>
      match decNat r2 with
      | some (i, r3) =>
        match decNat r3 with
        | some (x, r4) =>
          if r4 = [] then some { userId := u, email := e, iat := i, exp := x }
          else none
        | none => none
      | none => none
    | none => none
  | none => none

lemma decPayload_encPayload (p : TokenPayload) :
    decPayload (encPayload p) = some p := by
  simp [decPayload, encPayload, List.append_assoc, decStr_encStr, decNat_encNat,
    decNat_encNat_nil]

/-- Fixed legacy-token lifetime: 7 days in milliseconds. -/
def TOKEN_EXPIRY_MS : Nat := 7 * 24 * 60 * 60 * 1000

/-- A wire token: the signed payload bits and the tag. -/
structure Token where
  body : List Bool
  tag : List Bool
deriving DecidableEq, Repr

/-- Modelled from the spec: the symmetric signature over the payload with the
process-wide secret, idealized as a deterministic keyed tag that is
injective in the message for a fixed secret. -/
def signTag (secret body : List Bool) : List Bool := secret ++ body

/-- Modelled from the spec: `issue(userId, email)` mints a token whose
payload carries the pair with `iat := now` and a fixed 7-day expiry, and
signs it with the secret. -/
def issueToken (secret : List Bool) (userId email : String) (now : Nat) : Token :=
  let body := encPayload
    { userId := userId, email := email, iat := now, exp := now + TOKEN_EXPIRY_MS }
  { body := body, tag := signTag secret body }

/-- Modelled from the spec: `verify(token)` decodes the payload, checks the
signature and the expiry (`invalid` on malformed payload, signature
mismatch, or expiry in the past — indistinguishable to the caller), and
returns the `(userId, email)` pair. -/
def verifyToken (secret : List Bool) (tok : Token) (now : Nat) :
    Option (String × String) :=
  match decPayload tok.body with
  | none => none
  | some p =>
    if tok.tag = signTag secret tok.body ∧ now < p.exp then some (p.userId, p.email)
    else none

/-- Flip the `i`-th bit of a bit list (identity out of range). -/
def flipBit : List Bool → Nat → List Bool
  | [], _ => []
  | b :: bs, 0 => (!b) :: bs
  | b :: bs, n + 1 => b :: flipBit bs n

lemma flipBit_ne : ∀ (bs : List Bool) (i : Nat), i < bs.length → flipBit bs i ≠ bs := by
  intro bs
  induction bs with
  | nil =>
    intro i h
    simp at h
  | cons b bs ih =>
    intro i h he
    cases i with
    | zero =>
      simp [flipBit] at he
    | succ n =>
      simp only [flipBit, List.cons.injEq, true_and] at he
      exact ih n (by simpa using h) he

/-- C8: verifying a freshly issued token returns the original
`(userId, email)` pair strictly before the 7-day expiry; at or after the
expiry it is invalid; and flipping any single bit of the signed payload (or
of the tag) makes verification fail. -/
theorem token_roundtrip (secret : List Bool) (userId email : String)
    (iat now : Nat) :
    (now < iat + TOKEN_EXPIRY_MS →
      verifyToken secret (issueToken secret userId email iat) now =
        some (userId, email)) ∧
    (iat + TOKEN_EXPIRY_MS ≤ now →
      verifyToken secret (issueToken secret userId email iat) now = none) ∧
    (∀ i, i < (issueToken secret userId email iat).body.length →
      verifyToken secret
        { body := flipBit (issueToken secret userId email iat).body i,
          tag := (issueToken secret userId email iat).tag } now = none) ∧
    (∀ i, i < (issueToken secret userId email iat).tag.length →
      verifyToken secret
        { body := (issueToken secret userId email iat).body,
          tag := flipBit (issueToken secret userId email iat).tag i } now = none) := by
  refine ⟨?_, ?_, ?_, ?_⟩
  · intro h
    simp [verifyToken, issueToken, decPayload_encPayload, signTag, h]
  · intro h
    have hnl : ¬ (now < iat + TOKEN_EXPIRY_MS) := by omega
    simp [verifyToken, issueToken, decPayload_encPayload, signTag, hnl]
  · intro i hi
    have hne := flipBit_ne (issueToken secret userId email iat).body i hi
    cases hd : decPayload (flipBit (issueToken secret userId email iat).body i) with
    | none =>
      simp [verifyToken, hd]
    | some p =>
      have htag : (issueToken secret userId email iat).tag ≠
          signTag secret (flipBit (issueToken secret userId email iat).body i) := by
        simp only [issueToken, signTag]
        intro hcon
        exact hne (List.append_cancel_left hcon).symm
      simp [verifyToken, hd, htag]
  · intro i hi
    have hne := flipBit_ne (issueToken secret userId email iat).tag i hi
    simp [verifyToken, issueToken, decPayload_encPayload]
    intro hcon
    exact absurd hcon (by simpa [issueToken, signTag] using hne)

/-- Witness for C8: with secret `[true]`, a token for `("u", "e")` issued at
time 0 verifies to the pair at time 1, and flipping bit 0 of its payload
invalidates it. -/
theorem token_roundtrip_witness :
    verifyToken [true] (issueToken [true] "u" "e" 0) 1 = some ("u", "e") ∧
    verifyToken [true]
      { body := flipBit (issueToken [true] "u" "e" 0).body 0,
        tag := (issueToken [true] "u" "e" 0).tag } 1 = none :=
  ⟨(token_roundtrip [true] "u" "e" 0 1).1 (by decide),
   (token_roundtrip [true] "u" "e" 0 1).2.2.1 0 (by decide)⟩

end TodoAuth
